import Mathlib

/-!
Shallow embedding of the BitterBot protocol layer
(`src/protocol_layer/src/...`), restricted to the components the claims
touch: the orchestrator's `TaskScheduler` and `ResourceManager`, the
validator's `ConsensusEngine` and `ProofValidator`, and the worker's
`TaskExecutor` and `HealthReporter`.

Conventions of the embedding:
- Rust `u8`/`u64`/`usize` become `Nat` (no claim exercises overflow;
  `available -= amount` is guarded by `available >= amount` in the source,
  so `Nat` subtraction agrees with the `u64` subtraction).
- A Rust method on `&self` with interior mutability becomes a function
  `State -> args -> Result × State`; an `Err` return leaves the state
  exactly as the source does (the source mutates nothing before returning
  the error, except where noted, e.g. `HashMap::entry().or_insert` in
  `ConsensusEngine::submit_vote` materialises an empty entry).
- `HashMap<String, V>` becomes the function `String → Option V`; insertion
  is pointwise update.  Iteration order never matters for the claims.
- `Vec<T>`/`VecDeque<T>` become `List T` (front of the deque = head).
-/

/-! ## orchestrator/task_scheduler.rs -/

namespace Scheduler

/-- `Task` of task_scheduler.rs: id, priority (`u8`), payload bytes. -/
structure Task where
  id : String
  priority : Nat
  payload : List Nat
deriving Repr, DecidableEq

/-- `TaskScheduler`: a `VecDeque<Task>` guarded by a mutex, plus the
configured `max_queue_size`.  Head of the list is the front of the deque. -/
structure TaskScheduler where
  task_queue : List Task
  max_queue_size : Nat
deriving Repr, DecidableEq

/-- `TaskScheduler::new`. -/
def new (max_queue_size : Nat) : TaskScheduler :=
  { task_queue := [], max_queue_size := max_queue_size }

/-- `TaskScheduler::schedule_task`: error (queue untouched) when
`queue.len() >= max_queue_size`, otherwise `push_back`. -/
def schedule_task (s : TaskScheduler) (t : Task) : Except String Unit × TaskScheduler :=
  if s.max_queue_size ≤ s.task_queue.length then
    (.error "Task queue is full", s)
  else
    (.ok (), { s with task_queue := s.task_queue ++ [t] })

/-- `TaskScheduler::get_next_task`: `pop_front` on the deque. -/
def get_next_task (s : TaskScheduler) : Option Task × TaskScheduler :=
  match s.task_queue with
  | [] => (none, s)
  | t :: rest => (some t, { s with task_queue := rest })

/-- `TaskScheduler::pending_task_count`. -/
def pending_task_count (s : TaskScheduler) : Nat :=
  s.task_queue.length

/-- Driver: schedule a list of tasks one after the other, keeping the
scheduler state (exactly what a caller looping over `schedule_task` sees). -/
def scheduleAll (s : TaskScheduler) : List Task → TaskScheduler
  | [] => s
  | t :: ts => scheduleAll (schedule_task s t).2 ts

/-- Driver: call `get_next_task` `n` times, collecting the tasks returned. -/
def popN (s : TaskScheduler) : Nat → List Task × TaskScheduler
  | 0 => ([], s)
  | n + 1 =>
    match get_next_task s with
    | (none, s1) => ([], s1)
    | (some t, s1) =>
      let rest := popN s1 n
      (t :: rest.1, rest.2)

end Scheduler

/-! ## orchestrator/resource_manager.rs -/

namespace Ledger

/-- `ResourceType` of resource_manager.rs. -/
inductive ResourceType where
  | Cpu
  | Memory
  | Gpu
  | Storage
deriving Repr, DecidableEq

/-- `Resource`: id, type, capacity, available (`u64`). -/
structure Resource where
  id : String
  resource_type : ResourceType
  capacity : Nat
  available : Nat
deriving Repr, DecidableEq

/-- The `HashMap<String, Resource>` owned by `ResourceManager`. -/
abbrev ResourceMap := String → Option Resource

/-- `ResourceManager::new`. -/
def emptyResources : ResourceMap := fun _ => none

/-- `ResourceManager::register_resource`: error if the id is present,
otherwise insert the resource exactly as given (no validation of the
`available`/`capacity` relationship is performed by the source). -/
def register_resource (m : ResourceMap) (r : Resource) : Except String Unit × ResourceMap :=
  if (m r.id).isSome then
    (.error "Resource already exists", m)
  else
    (.ok (), fun k => if k = r.id then some r else m k)

/-- `ResourceManager::allocate`: error (map untouched) when the resource is
missing or `available < amount`; otherwise `available -= amount`. -/
def allocate (m : ResourceMap) (resource_id : String) (amount : Nat) :
    Except String Unit × ResourceMap :=
  match m resource_id with
  | some r =>
    if r.available < amount then
      (.error "Insufficient resources available", m)
    else
      (.ok (), fun k =>
        if k = resource_id then some { r with available := r.available - amount } else m k)
  | none => (.error "Resource not found", m)

/-- `ResourceManager::release`: on a present resource,
`available = min(available + amount, capacity)`; no record of past
allocations is consulted. -/
def release (m : ResourceMap) (resource_id : String) (amount : Nat) :
    Except String Unit × ResourceMap :=
  match m resource_id with
  | some r =>
    (.ok (), fun k =>
      if k = resource_id then
        some { r with available := min (r.available + amount) r.capacity }
      else m k)
  | none => (.error "Resource not found", m)

/-- `ResourceManager::get_resource_status`. -/
def get_resource_status (m : ResourceMap) (resource_id : String) : Option Resource :=
  m resource_id

/-- One call into the `ResourceManager` mutating interface. -/
inductive ROp where
  | register (r : Resource)
  | alloc (resource_id : String) (amount : Nat)
  | rel (resource_id : String) (amount : Nat)
deriving Repr, DecidableEq

/-- Manager state paired with ghost accounting: `outstanding id` is the net
amount allocated against `id` (total successfully allocated minus total
released), the formal reading of the spec's "sum of outstanding
allocations". -/
structure LedgerState where
  resources : ResourceMap
  outstanding : String → Nat

/-- A fresh `ResourceManager` with zero outstanding allocations. -/
def freshLedger : LedgerState :=
  { resources := emptyResources, outstanding := fun _ => 0 }

/-- Execute one operation, updating the ghost `outstanding` only when the
underlying source operation succeeds. -/
def step (s : LedgerState) : ROp → LedgerState
  | .register r => { s with resources := (register_resource s.resources r).2 }
  | .alloc rid amount =>
    match allocate s.resources rid amount with
    | (.ok _, m) =>
      { resources := m,
        outstanding := fun k => if k = rid then s.outstanding k + amount else s.outstanding k }
    | (.error _, m) => { s with resources := m }
  | .rel rid amount =>
    match release s.resources rid amount with
    | (.ok _, m) =>
      { resources := m,
        outstanding := fun k => if k = rid then s.outstanding k - amount else s.outstanding k }
    | (.error _, m) => { s with resources := m }

/-- Execute a whole sequence of operations. -/
def run (s : LedgerState) : List ROp → LedgerState
  | [] => s
  | op :: ops => run (step s op) ops

/-- Side conditions under which the ledger invariant can hold at all:
a resource is registered with `available = capacity` (so the registration
itself satisfies `capacity - available = 0 = outstanding`), and a release
against a present resource never exceeds that resource's outstanding
allocated amount. -/
def okOp (s : LedgerState) : ROp → Bool
  | .register r => r.available == r.capacity
  | .alloc _ _ => true
  | .rel rid amount =>
    match s.resources rid with
    | some _ => amount ≤ s.outstanding rid
    | none => true

/-- `okOp` holding at every step along the execution of the sequence. -/
def okTrace (s : LedgerState) : List ROp → Bool
  | [] => true
  | op :: ops => okOp s op && okTrace (step s op) ops

/-- The ledger invariant: every stored resource satisfies
`available + outstanding = capacity`, and absent resources have no
outstanding allocations. -/
def Inv (s : LedgerState) : Prop :=
  (∀ id r, s.resources id = some r → r.available + s.outstanding id = r.capacity) ∧
  (∀ id, s.resources id = none → s.outstanding id = 0)

end Ledger

/-! ## validator/consensus_engine.rs -/

namespace Consensus

/-- `Vote` of consensus_engine.rs. -/
structure Vote where
  validator_id : String
  block_hash : String
  timestamp : Nat
  signature : List Nat
deriving Repr, DecidableEq

/-- The `HashMap<String, Vec<Vote>>` owned by `ConsensusEngine`.  A key can
map to an explicitly present (possibly empty) vector, distinct from an
absent key, mirroring `HashMap::get` vs `entry().or_insert`. -/
abbrev VotesMap := String → Option (List Vote)

/-- `ConsensusEngine::new` starts with no votes. -/
def emptyVotes : VotesMap := fun _ => none

/-- The votes currently recorded for a block (`entry().or_insert(vec![])`
view: an absent entry reads as the empty vector). -/
def votesFor (m : VotesMap) (block_hash : String) : List Vote :=
  (m block_hash).getD []

/-- `ConsensusEngine::submit_vote`: `entry(block_hash).or_insert(vec![])`
materialises the entry, then the vote is rejected if this validator already
voted for the block, otherwise pushed. -/
def submit_vote (m : VotesMap) (v : Vote) : Except String Unit × VotesMap :=
  let block_votes := votesFor m v.block_hash
  if block_votes.any (fun w => w.validator_id == v.validator_id) then
    (.error "Validator already voted for this block",
      fun k => if k = v.block_hash then some block_votes else m k)
  else
    (.ok (), fun k => if k = v.block_hash then some (block_votes ++ [v]) else m k)

/-- Required vote count, `(validator_count as f64 * threshold).ceil()`,
modelled in exact rational arithmetic.  At every input a claim exercises
(`validator_count = 10`, `threshold = 0.67`) the source's `f64` evaluation
and this rational evaluation agree: the `f64` nearest 0.67 lies strictly
between 0.67 and 0.6700000001, so the product lies strictly between 6 and 7
and both ceilings are exactly 7. -/
def required_votes (validator_count : Nat) (threshold : ℚ) : ℤ :=
  ⌈(validator_count : ℚ) * threshold⌉

/-- `ConsensusEngine::check_consensus`: false when the block has no entry,
otherwise compare the recorded vote count against `required_votes`. -/
def check_consensus (m : VotesMap) (validator_count : Nat) (threshold : ℚ)
    (block_hash : String) : Bool :=
  match m block_hash with
  | some block_votes =>
    decide ((required_votes validator_count threshold : ℚ) ≤ (block_votes.length : ℚ))
  | none => false

end Consensus

/-! ## worker/task_executor.rs -/

namespace Executor

/-- `TaskExecutor::cancel_task` acts only on the `active_tasks:
Vec<String>` field; the embedding takes that list directly.  The source
finds the position of the first matching id and `Vec::remove`s it, or
errors leaving the list untouched. -/
def cancel_task (active : List String) (task_id : String) :
    Except String Unit × List String :=
  match active.findIdx? (fun id => id == task_id) with
  | some pos => (.ok (), active.eraseIdx pos)
  | none => (.error "Task not found", active)

end Executor

/-! ## validator/proof_validator.rs -/

namespace Validation

/-- `ProofType` of proof_validator.rs. -/
inductive ProofType where
  | WorkProof
  | StakeProof
  | ComputationProof
  | StorageProof
deriving Repr, DecidableEq

/-- `Proof` of proof_validator.rs. -/
structure Proof where
  id : String
  proof_type : ProofType
  data : List Nat
  timestamp : Nat
  submitter : String
deriving Repr, DecidableEq

/-- `ValidationResult`: validity flag, optional reason, wall-clock
timestamp. -/
structure ValidationResult where
  is_valid : Bool
  reason : Option String
  timestamp : Nat
deriving Repr, DecidableEq

/-- `ProofValidator` state: the mutex-guarded `validation_count` and the
(unused by the stubs) `difficulty_threshold`. -/
structure ProofValidator where
  validation_count : Nat
  difficulty_threshold : Nat
deriving Repr, DecidableEq

/-- `ProofValidator::new`. -/
def newValidator (difficulty_threshold : Nat) : ProofValidator :=
  { validation_count := 0, difficulty_threshold := difficulty_threshold }

/-- `ProofValidator::validate_work_proof` (`now` stands for the
`SystemTime::now()` reading used only for the result timestamp). -/
def validate_work_proof (p : Proof) (now : Nat) : ValidationResult :=
  { is_valid := 32 ≤ p.data.length,
    reason := if p.data.length < 32 then some "Proof data too short" else none,
    timestamp := now }

/-- `ProofValidator::validate_stake_proof`. -/
def validate_stake_proof (_p : Proof) (now : Nat) : ValidationResult :=
  { is_valid := true, reason := none, timestamp := now }

/-- `ProofValidator::validate_computation_proof`. -/
def validate_computation_proof (p : Proof) (now : Nat) : ValidationResult :=
  { is_valid := 0 < p.data.length,
    reason := if p.data.isEmpty then some "Empty computation proof" else none,
    timestamp := now }

/-- `ProofValidator::validate_storage_proof`. -/
def validate_storage_proof (p : Proof) (now : Nat) : ValidationResult :=
  { is_valid := 64 ≤ p.data.length,
    reason := if p.data.length < 64 then some "Invalid storage proof size" else none,
    timestamp := now }

/-- `ProofValidator::validate_proof`: increments `validation_count`, then
dispatches on the proof type. -/
def validate_proof (pv : ProofValidator) (p : Proof) (now : Nat) :
    ValidationResult × ProofValidator :=
  let pv1 := { pv with validation_count := pv.validation_count + 1 }
  let result :=
    match p.proof_type with
    | .WorkProof => validate_work_proof p now
    | .StakeProof => validate_stake_proof p now
    | .ComputationProof => validate_computation_proof p now
    | .StorageProof => validate_storage_proof p now
  (result, pv1)

/-- `ProofValidator::get_validation_count`. -/
def get_validation_count (pv : ProofValidator) : Nat :=
  pv.validation_count

end Validation

/-! ## worker/health_reporter.rs -/

namespace Health

/-- `HealthStatus` of health_reporter.rs. -/
inductive HealthStatus where
  | Healthy
  | Degraded
  | Unhealthy
  | Unknown
deriving Repr, DecidableEq

/-- `HealthCheckResult` (the `Instant` of `last_check` becomes a `Nat`
tick). -/
structure HealthCheckResult where
  component_name : String
  status : HealthStatus
  message : Option String
  last_check : Nat
  response_time_ms : Nat
deriving Repr, DecidableEq

/-- `HealthReporter::calculate_overall_status` over the recorded
`check_results` (the `HashMap` values, as a list; the counts the source
computes do not depend on iteration order). -/
def calculate_overall_status (results : List HealthCheckResult) : HealthStatus :=
  if results.isEmpty then
    .Unknown
  else
    let unhealthy_count := results.countP (fun r => r.status == .Unhealthy)
    let degraded_count := results.countP (fun r => r.status == .Degraded)
    if 0 < unhealthy_count then .Unhealthy
    else if 0 < degraded_count then .Degraded
    else .Healthy

/-- `HealthReporter::is_healthy`: the overall status of the current report
equals `Healthy`. -/
def is_healthy (results : List HealthCheckResult) : Bool :=
  calculate_overall_status results == .Healthy

end Health

/-! ## Theorems

Claim theorems are stated over the embedded definitions above.  Helper
lemmas shared by several proofs come first. -/

/-- Scheduling a list of tasks into a scheduler with enough spare capacity
appends them to the queue in submission order. -/
theorem Scheduler.scheduleAll_eq (n : Nat) (ts : List Scheduler.Task) :
    ∀ q : List Scheduler.Task, q.length + ts.length ≤ n →
      Scheduler.scheduleAll ⟨q, n⟩ ts = ⟨q ++ ts, n⟩ := by
  induction ts with
  | nil => intro q _; simp [Scheduler.scheduleAll]
  | cons t ts ih =>
    intro q h
    simp only [List.length_cons] at h
    have hlt : q.length < n := by omega
    simp only [Scheduler.scheduleAll, Scheduler.schedule_task, Nat.not_le.mpr hlt,
      if_false]
    have := ih (q ++ [t]) (by simp; omega)
    simpa using this

/-- Popping as many times as the queue is long returns the whole queue, in
order, leaving the scheduler empty. -/
theorem Scheduler.popN_drain (n : Nat) (q : List Scheduler.Task) :
    Scheduler.popN ⟨q, n⟩ q.length = (q, ⟨[], n⟩) := by
  induction q with
  | nil => simp [Scheduler.popN]
  | cons t rest ih =>
    simp [Scheduler.popN, Scheduler.get_next_task, ih]

/-- Claim C1 is false on the source: `TaskScheduler::get_next_task` is a
plain `pop_front` on the `VecDeque` and never consults `Task.priority`.
Submitting priorities [High = 8, Critical = 10, High = 8] (the numeric
levels of `shared/types.rs`) and popping three times yields priorities
[8, 10, 8] — submission order — and not the claimed [10, 8, 8]. -/
theorem claim1_priority_order_counterexample :
    (Scheduler.popN
        (Scheduler.scheduleAll (Scheduler.new 10)
          [⟨"t1", 8, []⟩, ⟨"t2", 10, []⟩, ⟨"t3", 8, []⟩]) 3).1.map
        Scheduler.Task.priority = [8, 10, 8]
  ∧ ([8, 10, 8] : List Nat) ≠ [10, 8, 8] := by
  exact ⟨rfl, by decide⟩

/-- Claim C1 (amended): the dequeue operation ignores priority entirely —
for every list of tasks submitted to a fresh scheduler within its capacity,
popping them all returns them in exact submission (FIFO) order, whatever
their priorities; in particular [High, Critical, High] pops as
[High, Critical, High]. -/
theorem claim1_fifo_order (n : Nat) (ts : List Scheduler.Task)
    (h : ts.length ≤ n) :
    Scheduler.scheduleAll (Scheduler.new n) ts = ⟨ts, n⟩
  ∧ (Scheduler.popN ⟨ts, n⟩ ts.length).1 = ts := by
  constructor
  · have := Scheduler.scheduleAll_eq n ts [] (by simpa using h)
    simpa [Scheduler.new] using this
  · rw [Scheduler.popN_drain]

/-- Witness for claim C1 (amended) at the spec's own example input. -/
theorem claim1_fifo_order_witness :
    ([⟨"t1", 8, []⟩, ⟨"t2", 10, []⟩, ⟨"t3", 8, []⟩] :
        List Scheduler.Task).length ≤ 10
  ∧ (Scheduler.scheduleAll (Scheduler.new 10)
        [⟨"t1", 8, []⟩, ⟨"t2", 10, []⟩, ⟨"t3", 8, []⟩]
        = ⟨[⟨"t1", 8, []⟩, ⟨"t2", 10, []⟩, ⟨"t3", 8, []⟩], 10⟩
    ∧ (Scheduler.popN ⟨[⟨"t1", 8, []⟩, ⟨"t2", 10, []⟩, ⟨"t3", 8, []⟩], 10⟩ 3).1
        = [⟨"t1", 8, []⟩, ⟨"t2", 10, []⟩, ⟨"t3", 8, []⟩]) :=
  ⟨by decide,
    claim1_fifo_order 10 [⟨"t1", 8, []⟩, ⟨"t2", 10, []⟩, ⟨"t3", 8, []⟩]
      (by decide)⟩

/-- Claim C7: on a queue whose pending count has reached `max_queue_size`,
`schedule_task` returns the queue-full error and leaves the scheduler
unchanged; below the maximum it succeeds and appends the task at the
back. -/
theorem claim7_queue_full_backpressure (s : Scheduler.TaskScheduler)
    (t : Scheduler.Task) :
    (s.max_queue_size ≤ s.task_queue.length →
      Scheduler.schedule_task s t = (.error "Task queue is full", s))
  ∧ (s.task_queue.length < s.max_queue_size →
      Scheduler.schedule_task s t =
        (.ok (), { s with task_queue := s.task_queue ++ [t] })) := by
  constructor
  · intro h; simp [Scheduler.schedule_task, h]
  · intro h; simp [Scheduler.schedule_task, Nat.not_le.mpr h]

/-- Witness for claim C7: a scheduler of capacity 0 is full and rejects. -/
theorem claim7_queue_full_backpressure_witness :
    (Scheduler.new 0).max_queue_size ≤ (Scheduler.new 0).task_queue.length
  ∧ Scheduler.schedule_task (Scheduler.new 0) ⟨"t", 1, []⟩
      = (.error "Task queue is full", Scheduler.new 0) :=
  ⟨by decide,
    (claim7_queue_full_backpressure (Scheduler.new 0) ⟨"t", 1, []⟩).1
      (by decide)⟩

/-- Claim C5: for a registered resource, a request above `available` makes
`allocate` return the insufficient-resources error with the map untouched
(no partial reservation), and a request within `available` succeeds and
decreases `available` by exactly the requested amount, touching no other
resource. -/
theorem claim5_allocate_exact (m : Ledger.ResourceMap) (rid : String)
    (amount : Nat) (r : Ledger.Resource) (h : m rid = some r) :
    (r.available < amount →
      Ledger.allocate m rid amount = (.error "Insufficient resources available", m))
  ∧ (amount ≤ r.available →
      (Ledger.allocate m rid amount).1 = .ok ()
    ∧ (Ledger.allocate m rid amount).2 rid
        = some { r with available := r.available - amount }
    ∧ ∀ k, k ≠ rid → (Ledger.allocate m rid amount).2 k = m k) := by
  constructor
  · intro hlt
    simp [Ledger.allocate, h, hlt]
  · intro hle
    have hnlt : ¬ r.available < amount := Nat.not_lt.mpr hle
    refine ⟨by simp [Ledger.allocate, h, hnlt], by simp [Ledger.allocate, h, hnlt], ?_⟩
    intro k hk
    simp [Ledger.allocate, h, hnlt, hk]

/-- Map with one registered resource, used by the claim C5 witness. -/
def Ledger.demoMapC5 : Ledger.ResourceMap :=
  fun k => if k = "r" then some ⟨"r", .Cpu, 5, 2⟩ else none

/-- Witness for claim C5: requesting 4 of a resource with 2 available is
rejected and leaves the map untouched. -/
theorem claim5_allocate_exact_witness :
    Ledger.demoMapC5 "r" = some ⟨"r", Ledger.ResourceType.Cpu, 5, 2⟩
  ∧ ((2 : Nat) < 4 →
      Ledger.allocate Ledger.demoMapC5 "r" 4
        = (.error "Insufficient resources available", Ledger.demoMapC5)) :=
  ⟨by decide,
    (claim5_allocate_exact Ledger.demoMapC5 "r" 4 ⟨"r", .Cpu, 5, 2⟩ (by decide)).1⟩

/-- Map with one registered resource (capacity 10, available 0), used by
the claim C6 counterexample and witness. -/
def Ledger.demoMapC6 : Ledger.ResourceMap :=
  fun k => if k = "r" then some ⟨"r", .Gpu, 10, 0⟩ else none

/-- Claim C6 is false on the source: `release` is keyed by an amount, not a
reservation token, and simply adds the amount again on a second call
(clamped at capacity).  Releasing 3 units twice on a resource with
capacity 10 and 0 available leaves 3 after the first call but 6 after the
second. -/
theorem claim6_release_idempotent_counterexample :
    (Ledger.release Ledger.demoMapC6 "r" 3).2 "r"
      = some ⟨"r", Ledger.ResourceType.Gpu, 10, 3⟩
  ∧ (Ledger.release (Ledger.release Ledger.demoMapC6 "r" 3).2 "r" 3).2 "r"
      = some ⟨"r", Ledger.ResourceType.Gpu, 10, 6⟩
  ∧ some (⟨"r", Ledger.ResourceType.Gpu, 10, 6⟩ : Ledger.Resource)
      ≠ some (⟨"r", Ledger.ResourceType.Gpu, 10, 3⟩ : Ledger.Resource) := by
  refine ⟨by decide, by decide, by decide⟩

/-- Claim C6 (amended): a second `release` with the same arguments adds the
amount a second time, clamped at capacity; it leaves the resource state
unchanged exactly when the amount is zero or the first call already raised
`available` to `capacity`. -/
theorem Ledger.release_eq_of_some (m : Ledger.ResourceMap) (rid : String)
    (amount : Nat) (r : Ledger.Resource) (h : m rid = some r) :
    Ledger.release m rid amount
      = (.ok (), fun k => if k = rid then
          some { r with available := min (r.available + amount) r.capacity }
        else m k) := by
  simp [Ledger.release, h]

theorem claim6_release_second_call (m : Ledger.ResourceMap) (rid : String)
    (amount : Nat) (r : Ledger.Resource) (h : m rid = some r) :
    (Ledger.release (Ledger.release m rid amount).2 rid amount).2
      = (Ledger.release m rid amount).2
  ↔ (amount = 0 ∨ r.capacity ≤ r.available + amount) := by
  have h1 := Ledger.release_eq_of_some m rid amount r h
  have hm1 : (Ledger.release m rid amount).2 rid
      = some { r with available := min (r.available + amount) r.capacity } := by
    rw [h1]; simp
  have h2 := Ledger.release_eq_of_some (Ledger.release m rid amount).2 rid amount
    { r with available := min (r.available + amount) r.capacity } hm1
  constructor
  · intro heq
    rw [h2] at heq
    have hrid := congrFun heq rid
    rw [hm1] at hrid
    simp at hrid
    omega
  · intro hor
    rw [h2, h1]
    funext k
    by_cases hk : k = rid
    · subst hk
      simp
      omega
    · simp [hk]

/-- Witness for claim C6 (amended) at the counterexample's input: with
capacity 10, available 0 and amount 3 neither disjunct holds, so the two
states differ. -/
theorem claim6_release_second_call_witness :
    Ledger.demoMapC6 "r" = some ⟨"r", Ledger.ResourceType.Gpu, 10, 0⟩
  ∧ ((Ledger.release (Ledger.release Ledger.demoMapC6 "r" 3).2 "r" 3).2
      = (Ledger.release Ledger.demoMapC6 "r" 3).2
    ↔ ((3 : Nat) = 0 ∨ (10 : Nat) ≤ 0 + 3)) :=
  ⟨by decide,
    claim6_release_second_call Ledger.demoMapC6 "r" 3 ⟨"r", .Gpu, 10, 0⟩
      (by decide)⟩

/-- One `step` preserves the ledger invariant when the step's side
condition holds. -/
theorem Ledger.inv_step (s : Ledger.LedgerState) (op : Ledger.ROp)
    (hInv : Ledger.Inv s) (hok : Ledger.okOp s op = true) :
    Ledger.Inv (Ledger.step s op) := by
  obtain ⟨h1, h2⟩ := hInv
  cases op with
  | register r =>
    simp only [Ledger.okOp, beq_iff_eq] at hok
    cases hres : s.resources r.id with
    | some v =>
      have hstep : Ledger.step s (.register r) = s := by
        simp [Ledger.step, Ledger.register_resource, hres]
      rw [hstep]
      exact ⟨h1, h2⟩
    | none =>
      refine ⟨?_, ?_⟩
      · intro id rr hid
        simp [Ledger.step, Ledger.register_resource, hres] at hid ⊢
        by_cases hk : id = r.id
        · subst hk
          simp at hid
          subst hid
          have hout := h2 r.id hres
          omega
        · simp [hk] at hid
          exact h1 id rr hid
      · intro id hid
        simp [Ledger.step, Ledger.register_resource, hres] at hid ⊢
        by_cases hk : id = r.id
        · subst hk
          simp at hid
        · simp [hk] at hid
          exact h2 id hid
  | alloc rid amount =>
    cases hres : s.resources rid with
    | none =>
      have hstep : Ledger.step s (.alloc rid amount) = s := by
        simp [Ledger.step, Ledger.allocate, hres]
      rw [hstep]
      exact ⟨h1, h2⟩
    | some r =>
      by_cases hlt : r.available < amount
      · have hstep : Ledger.step s (.alloc rid amount) = s := by
          simp [Ledger.step, Ledger.allocate, hres, hlt]
        rw [hstep]
        exact ⟨h1, h2⟩
      · have hcap := h1 rid r hres
        refine ⟨?_, ?_⟩
        · intro id rr hid
          simp [Ledger.step, Ledger.allocate, hres, hlt] at hid ⊢
          by_cases hk : id = rid
          · subst hk
            simp at hid
            subst hid
            simp
            omega
          · simp [hk] at hid ⊢
            exact h1 id rr hid
        · intro id hid
          simp [Ledger.step, Ledger.allocate, hres, hlt] at hid ⊢
          by_cases hk : id = rid
          · subst hk
            simp at hid
          · simp [hk] at hid ⊢
            exact h2 id hid
  | rel rid amount =>
    cases hres : s.resources rid with
    | none =>
      have hstep : Ledger.step s (.rel rid amount) = s := by
        simp [Ledger.step, Ledger.release, hres]
      rw [hstep]
      exact ⟨h1, h2⟩
    | some r =>
      have hle : amount ≤ s.outstanding rid := by
        simp [Ledger.okOp, hres] at hok
        exact hok
      have hcap := h1 rid r hres
      refine ⟨?_, ?_⟩
      · intro id rr hid
        simp [Ledger.step, Ledger.release, hres] at hid ⊢
        by_cases hk : id = rid
        · subst hk
          simp at hid
          subst hid
          simp
          omega
        · simp [hk] at hid ⊢
          exact h1 id rr hid
      · intro id hid
        simp [Ledger.step, Ledger.release, hres] at hid ⊢
        by_cases hk : id = rid
        · subst hk
          simp at hid
        · simp [hk] at hid ⊢
          exact h2 id hid

/-- The invariant is preserved along any execution whose side conditions
all hold. -/
theorem Ledger.inv_run (ops : List Ledger.ROp) :
    ∀ s : Ledger.LedgerState, Ledger.Inv s → Ledger.okTrace s ops = true →
      Ledger.Inv (Ledger.run s ops) := by
  induction ops with
  | nil =>
    intro s hs _
    exact hs
  | cons op ops ih =>
    intro s hs hok
    simp only [Ledger.okTrace, Bool.and_eq_true] at hok
    exact ih _ (Ledger.inv_step s op hs hok.1) hok.2

/-- A fresh manager satisfies the ledger invariant. -/
theorem Ledger.inv_fresh : Ledger.Inv Ledger.freshLedger := by
  constructor
  · intro id r hid
    simp [Ledger.freshLedger, Ledger.emptyResources] at hid
  · intro id _
    rfl

/-- Claim C2 is false on the source: `register_resource` stores the
resource exactly as given without validating `available ≤ capacity`, so a
single `register_resource` on a fresh manager can store a resource with
`available = 10 > 5 = capacity`; and a resource registered with
`available = 3 < 5 = capacity` has `capacity - available = 2` while no
allocation is outstanding. -/
theorem claim2_invariant_counterexample :
    ((Ledger.run Ledger.freshLedger
        [Ledger.ROp.register ⟨"a", .Cpu, 5, 10⟩]).resources "a"
      = some ⟨"a", Ledger.ResourceType.Cpu, 5, 10⟩
    ∧ ¬ ((10 : Nat) ≤ 5))
  ∧ ((Ledger.run Ledger.freshLedger
        [Ledger.ROp.register ⟨"b", .Cpu, 5, 3⟩]).resources "b"
      = some ⟨"b", Ledger.ResourceType.Cpu, 5, 3⟩
    ∧ (Ledger.run Ledger.freshLedger
        [Ledger.ROp.register ⟨"b", .Cpu, 5, 3⟩]).outstanding "b" = 0
    ∧ (5 : Nat) - 3 ≠ 0) := by
  refine ⟨⟨by decide, by decide⟩, by decide, by decide, by decide⟩

/-- Claim C2 (amended): starting from a fresh manager, for every sequence
of operations in which each registered resource is stored with
`available = capacity` and no release exceeds the resource's outstanding
allocated amount, every stored resource satisfies
`0 ≤ available ≤ capacity` and `capacity - available` equals the sum of
outstanding allocations against it.  Without those side conditions the
invariant fails, because `register_resource` validates nothing and
`release` is amount-based and clamped at capacity. -/
theorem claim2_ledger_invariant (ops : List Ledger.ROp) (id : String)
    (r : Ledger.Resource) (h : Ledger.okTrace Ledger.freshLedger ops = true)
    (hid : (Ledger.run Ledger.freshLedger ops).resources id = some r) :
    r.available ≤ r.capacity
  ∧ r.capacity - r.available = (Ledger.run Ledger.freshLedger ops).outstanding id := by
  have hInv := Ledger.inv_run ops Ledger.freshLedger Ledger.inv_fresh h
  have hmain := hInv.1 id r hid
  omega

/-- Operation sequence exercising the claim C2 invariant: register with
full availability, allocate 2, release 1. -/
def Ledger.demoOps : List Ledger.ROp :=
  [.register ⟨"r", .Cpu, 5, 5⟩, .alloc "r" 2, .rel "r" 1]

/-- Witness for claim C2 (amended): after the demo trace the resource
holds 4 of 5 available with 1 outstanding. -/
theorem claim2_ledger_invariant_witness :
    Ledger.okTrace Ledger.freshLedger Ledger.demoOps = true
  ∧ (Ledger.run Ledger.freshLedger Ledger.demoOps).resources "r"
      = some ⟨"r", Ledger.ResourceType.Cpu, 5, 4⟩
  ∧ ((4 : Nat) ≤ 5
    ∧ (5 : Nat) - 4
        = (Ledger.run Ledger.freshLedger Ledger.demoOps).outstanding "r") :=
  ⟨by decide, by decide,
    claim2_ledger_invariant Ledger.demoOps "r" ⟨"r", .Cpu, 5, 4⟩
      (by decide) (by decide)⟩

/-- Claim C3: with `validator_count = 10` and `threshold = 0.67` the
required approval count is `ceil(0.67 * 10) = 7`; a block with 6 recorded
votes is not committed, a block with 7 recorded votes is.  (Every vote
`submit_vote` records counts as an approval: the source's `Vote` carries no
approve/reject flag and `check_consensus` compares the full vote count.) -/
theorem claim3_quorum_arithmetic (m : Consensus.VotesMap) (bh : String)
    (bv : List Consensus.Vote) (hm : m bh = some bv) :
    Consensus.required_votes 10 (67 / 100) = 7
  ∧ (bv.length = 6 → Consensus.check_consensus m 10 (67 / 100) bh = false)
  ∧ (bv.length = 7 → Consensus.check_consensus m 10 (67 / 100) bh = true) := by
  have hreq : Consensus.required_votes 10 (67 / 100) = 7 := by
    simp only [Consensus.required_votes]
    rw [show ((10 : ℕ) : ℚ) * (67 / 100) = 67 / 10 by norm_num, Int.ceil_eq_iff]
    norm_num
  refine ⟨hreq, ?_, ?_⟩
  · intro h6
    simp only [Consensus.check_consensus, hm, h6, hreq]
    norm_num
  · intro h7
    simp only [Consensus.check_consensus, hm, h7, hreq]
    norm_num

/-- Seven recorded votes on block "blk", for the claim C3 witness. -/
def Consensus.demoVotes7 : List Consensus.Vote :=
  [⟨"v1", "blk", 0, []⟩, ⟨"v2", "blk", 0, []⟩, ⟨"v3", "blk", 0, []⟩,
   ⟨"v4", "blk", 0, []⟩, ⟨"v5", "blk", 0, []⟩, ⟨"v6", "blk", 0, []⟩,
   ⟨"v7", "blk", 0, []⟩]

/-- Votes map holding the seven demo votes, for the claim C3 witness. -/
def Consensus.demoMapC3 : Consensus.VotesMap :=
  fun k => if k = "blk" then some Consensus.demoVotes7 else none

/-- Witness for claim C3 at a block with exactly 7 recorded votes. -/
theorem claim3_quorum_arithmetic_witness :
    Consensus.demoMapC3 "blk" = some Consensus.demoVotes7
  ∧ (Consensus.required_votes 10 (67 / 100) = 7
    ∧ (Consensus.demoVotes7.length = 6 →
        Consensus.check_consensus Consensus.demoMapC3 10 (67 / 100) "blk" = false)
    ∧ (Consensus.demoVotes7.length = 7 →
        Consensus.check_consensus Consensus.demoMapC3 10 (67 / 100) "blk" = true)) :=
  ⟨by decide,
    claim3_quorum_arithmetic Consensus.demoMapC3 "blk" Consensus.demoVotes7
      (by decide)⟩

/-- Claim C4: a vote by a validator who already voted on the block is
rejected with the duplicate-vote error and the block's recorded votes are
unchanged; a vote by a fresh validator is appended and returns Ok. -/
theorem claim4_duplicate_vote (m : Consensus.VotesMap) (v : Consensus.Vote) :
    ((Consensus.votesFor m v.block_hash).any
        (fun w => w.validator_id == v.validator_id) = true →
      (Consensus.submit_vote m v).1
          = .error "Validator already voted for this block"
    ∧ Consensus.votesFor (Consensus.submit_vote m v).2 v.block_hash
        = Consensus.votesFor m v.block_hash)
  ∧ ((Consensus.votesFor m v.block_hash).any
        (fun w => w.validator_id == v.validator_id) = false →
      (Consensus.submit_vote m v).1 = .ok ()
    ∧ Consensus.votesFor (Consensus.submit_vote m v).2 v.block_hash
        = Consensus.votesFor m v.block_hash ++ [v]) := by
  constructor
  · intro hdup
    constructor
    · simp only [Consensus.submit_vote]
      rw [if_pos hdup]
    · simp only [Consensus.submit_vote]
      rw [if_pos hdup]
      simp [Consensus.votesFor]
  · intro hnew
    constructor
    · simp only [Consensus.submit_vote]
      rw [if_neg (by simp [hnew])]
    · simp only [Consensus.submit_vote]
      rw [if_neg (by simp [hnew])]
      simp [Consensus.votesFor]

/-- First demo vote: validator "val1" on block "blk". -/
def Consensus.demoVote1 : Consensus.Vote := ⟨"val1", "blk", 0, []⟩

/-- Second demo vote: the same validator on the same block again. -/
def Consensus.demoVote2 : Consensus.Vote := ⟨"val1", "blk", 1, [7]⟩

/-- Votes map after the first demo vote was recorded. -/
def Consensus.demoMapC4 : Consensus.VotesMap :=
  (Consensus.submit_vote Consensus.emptyVotes Consensus.demoVote1).2

/-- Witness for claim C4: the second vote of "val1" on "blk" is rejected
and the block's recorded votes stay as they were. -/
theorem claim4_duplicate_vote_witness :
    (Consensus.votesFor Consensus.demoMapC4 Consensus.demoVote2.block_hash).any
        (fun w => w.validator_id == Consensus.demoVote2.validator_id) = true
  ∧ ((Consensus.submit_vote Consensus.demoMapC4 Consensus.demoVote2).1
        = .error "Validator already voted for this block"
    ∧ Consensus.votesFor
          (Consensus.submit_vote Consensus.demoMapC4 Consensus.demoVote2).2
          Consensus.demoVote2.block_hash
        = Consensus.votesFor Consensus.demoMapC4 Consensus.demoVote2.block_hash) :=
  ⟨by decide,
    (claim4_duplicate_vote Consensus.demoMapC4 Consensus.demoVote2).1 (by decide)⟩

/-- Unfolding of `cancel_task` over a cons cell: the head is removed when
it matches, otherwise the head is kept and the tail is searched. -/
theorem Executor.cancel_task_cons (a : String) (l : List String) (task_id : String) :
    Executor.cancel_task (a :: l) task_id =
      if a == task_id then (.ok (), l)
      else
        match Executor.cancel_task l task_id with
        | (.ok _, l2) => (.ok (), a :: l2)
        | (.error e, _) => (.error e, a :: l) := by
  by_cases ha : (a == task_id) = true
  · simp [Executor.cancel_task, List.findIdx?_cons, ha]
  · simp only [Executor.cancel_task, List.findIdx?_cons, ha, if_neg,
      Bool.false_eq_true, if_false, List.findIdx?_succ]
    cases hf : List.findIdx? (fun id => id == task_id) l with
    | none => simp [hf, ha]
    | some i => simp [hf, ha, List.eraseIdx_cons_succ]

/-- `cancel_task` is remove-first-occurrence: it succeeds exactly on a
present id, erasing its first occurrence, and errors leaving the list
alone otherwise. -/
theorem Executor.cancel_task_eq (active : List String) (task_id : String) :
    Executor.cancel_task active task_id =
      if task_id ∈ active then (.ok (), active.erase task_id)
      else (.error "Task not found", active) := by
  induction active with
  | nil => simp [Executor.cancel_task, List.findIdx?]
  | cons a l ih =>
    rw [Executor.cancel_task_cons, ih]
    by_cases ha : (a == task_id) = true
    · have ha' : a = task_id := by simpa [beq_iff_eq] using ha
      subst ha'
      simp [List.erase_cons_head]
    · have ha' : a ≠ task_id := by simpa [beq_iff_eq] using ha
      by_cases hmem : task_id ∈ l
      · simp [ha, hmem, List.erase_cons_tail ha]
      · have hnmem : task_id ∉ a :: l := by
          simp only [List.mem_cons, not_or]
          exact ⟨fun h => ha' h.symm, hmem⟩
        simp [ha, hmem, hnmem]

/-- Claim C8: `cancel_task` returns Ok exactly when the id is in the active
list; it then removes precisely the first entry equal to the id, keeping
every other entry in order, and otherwise returns the task-not-found error
with the list unchanged. -/
theorem claim8_cancel_task (active : List String) (task_id : String) :
    (task_id ∈ active →
      (Executor.cancel_task active task_id).1 = .ok ()
    ∧ ∃ l1 l2, task_id ∉ l1 ∧ active = l1 ++ task_id :: l2
        ∧ (Executor.cancel_task active task_id).2 = l1 ++ l2)
  ∧ (task_id ∉ active →
      Executor.cancel_task active task_id = (.error "Task not found", active)) := by
  constructor
  · intro hmem
    rw [Executor.cancel_task_eq, if_pos hmem]
    obtain ⟨l1, l2, hnot, heq, herase⟩ := List.exists_erase_eq hmem
    exact ⟨rfl, l1, l2, hnot, heq, herase⟩
  · intro hnot
    rw [Executor.cancel_task_eq, if_neg hnot]

/-- Witness for claim C8: cancelling "t2" in ["t1", "t2", "t3"] succeeds
and removes exactly that entry. -/
theorem claim8_cancel_task_witness :
    "t2" ∈ ["t1", "t2", "t3"]
  ∧ ((Executor.cancel_task ["t1", "t2", "t3"] "t2").1 = .ok ()
    ∧ ∃ l1 l2, "t2" ∉ l1 ∧ ["t1", "t2", "t3"] = l1 ++ "t2" :: l2
        ∧ (Executor.cancel_task ["t1", "t2", "t3"] "t2").2 = l1 ++ l2) :=
  ⟨by decide, (claim8_cancel_task ["t1", "t2", "t3"] "t2").1 (by decide)⟩

/-- Claim C9 is false on the source: `validate_proof` increments the
mutex-guarded `validation_count` on every call, a state change observable
through `get_validation_count`.  A fresh validator reports count 0; after
one `validate_proof` call it reports 1. -/
theorem claim9_side_effect_counterexample :
    Validation.get_validation_count (Validation.newValidator 1000) = 0
  ∧ Validation.get_validation_count
      (Validation.validate_proof (Validation.newValidator 1000)
        ⟨"p1", .StakeProof, [], 0, "alice"⟩ 0).2 = 1
  ∧ (1 : Nat) ≠ 0 :=
  ⟨rfl, rfl, by decide⟩

/-- Claim C9 (amended): `validate_proof` is deterministic in `is_valid` and
`reason` — the pair is a function of the proof alone, independent of the
validator state and of the wall clock — but it is not side-effect-free:
each call increments the count returned by `get_validation_count` by
exactly one. -/
theorem claim9_validation_deterministic_but_counted
    (pv1 pv2 : Validation.ProofValidator) (p : Validation.Proof)
    (t1 t2 : Nat) :
    ((Validation.validate_proof pv1 p t1).1.is_valid
        = (Validation.validate_proof pv2 p t2).1.is_valid
    ∧ (Validation.validate_proof pv1 p t1).1.reason
        = (Validation.validate_proof pv2 p t2).1.reason)
  ∧ Validation.get_validation_count (Validation.validate_proof pv1 p t1).2
      = Validation.get_validation_count pv1 + 1 := by
  refine ⟨?_, rfl⟩
  cases hpt : p.proof_type <;>
    simp [Validation.validate_proof, hpt, Validation.validate_work_proof,
      Validation.validate_stake_proof, Validation.validate_computation_proof,
      Validation.validate_storage_proof]

/-- Claim C10: with no recorded results the overall status is Unknown and
`is_healthy` is false; with results, any Unhealthy component makes the
overall status Unhealthy, otherwise any Degraded component makes it
Degraded, otherwise it is Healthy. -/
theorem claim10_overall_status (results : List Health.HealthCheckResult) :
    (results = [] →
      Health.calculate_overall_status results = .Unknown
    ∧ Health.is_healthy results = false)
  ∧ (results ≠ [] →
      ((∃ r ∈ results, r.status = Health.HealthStatus.Unhealthy) →
        Health.calculate_overall_status results = .Unhealthy)
    ∧ ((∀ r ∈ results, r.status ≠ Health.HealthStatus.Unhealthy) →
        (∃ r ∈ results, r.status = Health.HealthStatus.Degraded) →
        Health.calculate_overall_status results = .Degraded)
    ∧ ((∀ r ∈ results, r.status ≠ Health.HealthStatus.Unhealthy
          ∧ r.status ≠ Health.HealthStatus.Degraded) →
        Health.calculate_overall_status results = .Healthy)) := by
  constructor
  · intro h
    subst h
    exact ⟨rfl, rfl⟩
  · intro hne
    have hempty : results.isEmpty = false := by
      simpa [List.isEmpty_iff] using hne
    refine ⟨?_, ?_, ?_⟩
    · rintro ⟨r, hr, hst⟩
      have hpos : 0 < results.countP
          (fun r => r.status == Health.HealthStatus.Unhealthy) := by
        rw [List.countP_pos_iff]
        exact ⟨r, hr, by simp [hst]⟩
      simp [Health.calculate_overall_status, hempty, hpos]
    · intro hall hdeg
      have hzero : results.countP
          (fun r => r.status == Health.HealthStatus.Unhealthy) = 0 := by
        rw [List.countP_eq_zero]
        intro r hr
        simp only [beq_iff_eq]
        exact hall r hr
      obtain ⟨r, hr, hst⟩ := hdeg
      have hpos : 0 < results.countP
          (fun r => r.status == Health.HealthStatus.Degraded) := by
        rw [List.countP_pos_iff]
        exact ⟨r, hr, by simp [hst]⟩
      simp [Health.calculate_overall_status, hempty, hzero, hpos]
    · intro hall
      have hz1 : results.countP
          (fun r => r.status == Health.HealthStatus.Unhealthy) = 0 := by
        rw [List.countP_eq_zero]
        intro r hr
        simp only [beq_iff_eq]
        exact (hall r hr).1
      have hz2 : results.countP
          (fun r => r.status == Health.HealthStatus.Degraded) = 0 := by
        rw [List.countP_eq_zero]
        intro r hr
        simp only [beq_iff_eq]
        exact (hall r hr).2
      simp [Health.calculate_overall_status, hempty, hz1, hz2]

/-- A single Degraded health-check result, for the claim C10 witness. -/
def Health.demoDegraded : Health.HealthCheckResult :=
  ⟨"db", .Degraded, none, 0, 5⟩

/-- Witness for claim C10: one Degraded result and no Unhealthy result
yields overall status Degraded. -/
theorem claim10_overall_status_witness :
    ([Health.demoDegraded] : List Health.HealthCheckResult) ≠ []
  ∧ Health.calculate_overall_status [Health.demoDegraded]
      = Health.HealthStatus.Degraded :=
  ⟨by decide,
    ((claim10_overall_status [Health.demoDegraded]).2 (by decide)).2.1
      (by decide) (by decide)⟩
